import Mathlib

/-!
# Kronos / Racelith penalty tracking — verification of the specification

Shallow embedding of the infringement-tracking logic of the repository.
The repository contains two client variants:

* a server-backed variant (`App.tsx`, `InfringementLog` in `src/unnamed/part_001`)
  working on `InfringementRecord` values with `penalty_due` / `penalty_taken`
  fields fetched over REST, deriving a display status at read time;
* a local-state variant (`KronosLogo.tsx` lines 57-231, `PendingPenalties.tsx`,
  `EditInfringementDialog.tsx`, the form in `src/unnamed/part_002`) working on
  `Infringement` values with a boolean `penaltyApplied` flag.

Timestamps are modelled as integer milliseconds since the epoch (the value of
JavaScript `Date.prototype.getTime`).  Exact rational arithmetic stands in for
JavaScript number arithmetic; the quantities involved (millisecond differences
divided by 60000, compared against whole minutes) are exact in both.
-/

/-- The derived display status of an infringement record
(`src/unnamed/part_001`, lines 241-276 and the popup `getStatus`, line 119). -/
inductive Status where
  | Applied
  | Expired
  | Warning
  | Pending
  | Cleared
deriving DecidableEq, Repr

/-- Server-side infringement record as used by the server-backed client
(`src/unnamed/part_001`; field list per the REST payloads consumed there).
`penalty_description` is nullable (the table renders a dash for `null`),
`penalty_due` is the string enumeration "Yes" / "No", and `timestamp` is the
creation time in milliseconds. -/
structure InfringementRecord where
  id : Int
  kart_number : Int
  turn_number : Option Int
  observer : String
  description : String
  penalty_description : Option String
  penalty_due : String
  penalty_taken : Bool
  performed_by : String
  timestamp : Int
deriving DecidableEq, Repr

/-- `isExpired` from `src/unnamed/part_001` (lines 168-174, and the popup
script line 118): a record is an expired warning when its penalty is
"Warning" and `(now.getTime() - timestamp.getTime()) / (1000 * 60)` strictly
exceeds `warningExpiryMinutes`. -/
def isExpired (nowMs warningExpiryMinutes : Int) (inf : InfringementRecord) : Bool :=
  if inf.penalty_description ≠ some "Warning" then false
  else
    decide ((((nowMs - inf.timestamp : Int) : ℚ) / (1000 * 60)) > (warningExpiryMinutes : ℚ))

/-- `getStatus` from `src/unnamed/part_001` (popup script line 119; the same
chain of tests appears inline in the table renderer, lines 241-276):
`Applied` when `penalty_due === "No" && penalty_taken && !isWarning`,
otherwise `Expired` when `isExpired`, otherwise `Warning` when the penalty is
"Warning", otherwise `Pending` when `penalty_due === "Yes"`, else `Cleared`. -/
def getStatus (nowMs warningExpiryMinutes : Int) (inf : InfringementRecord) : Status :=
  if inf.penalty_due = "No" ∧ inf.penalty_taken = true ∧ inf.penalty_description ≠ some "Warning"
    then Status.Applied
  else if isExpired nowMs warningExpiryMinutes inf = true then Status.Expired
  else if inf.penalty_description = some "Warning" then Status.Warning
  else if inf.penalty_due = "Yes" then Status.Pending
  else Status.Cleared

/-- The status derivation as worded by the specification (for comparison with
`getStatus`): Applied if `penalty_due = "No"` and `penalty_taken = true` and
the penalty is not "Warning"; otherwise Expired if the penalty is "Warning"
and the elapsed time since `timestamp` exceeds the expiry window (given in
minutes); otherwise Warning if the penalty is "Warning"; otherwise Pending if
`penalty_due = "Yes"`; else Cleared. -/
def specStatus (nowMs warningExpiryMinutes : Int) (inf : InfringementRecord) : Status :=
  if inf.penalty_due = "No" ∧ inf.penalty_taken = true ∧ inf.penalty_description ≠ some "Warning"
    then Status.Applied
  else if inf.penalty_description = some "Warning" ∧
      warningExpiryMinutes * 60000 < nowMs - inf.timestamp then Status.Expired
  else if inf.penalty_description = some "Warning" then Status.Warning
  else if inf.penalty_due = "Yes" then Status.Pending
  else Status.Cleared

theorem isExpired_iff (nowMs warningExpiryMinutes : Int) (inf : InfringementRecord) :
    isExpired nowMs warningExpiryMinutes inf = true ↔
      (inf.penalty_description = some "Warning" ∧
        warningExpiryMinutes * 60000 < nowMs - inf.timestamp) := by
  unfold isExpired
  by_cases h : inf.penalty_description = some "Warning"
  · simp only [h, ne_eq, not_true_eq_false, if_false, decide_eq_true_eq, gt_iff_lt, true_and]
    rw [lt_div_iff₀ (by norm_num : (0 : ℚ) < 1000 * 60)]
    rw [show ((warningExpiryMinutes : ℚ) * (1000 * 60)) =
        ((warningExpiryMinutes * 60000 : Int) : ℚ) by push_cast; ring]
    exact Int.cast_lt
  · simp [h]

/-- **C1.** Status derivation is a pure total function of the record's fields,
the current time and the configured expiry: `getStatus` (a total function into
the five-constructor type `Status`, hence producing exactly one of Applied,
Expired, Warning, Pending, Cleared) agrees everywhere with `specStatus`, the
case chain stated by the specification: Applied if `penalty_due = "No"` and
`penalty_taken = true` and the penalty is not "Warning"; otherwise Expired if
the penalty is "Warning" and expired; otherwise Warning if the penalty is
"Warning"; otherwise Pending if `penalty_due = "Yes"`; otherwise Cleared. -/
theorem getStatus_eq_specStatus (nowMs warningExpiryMinutes : Int) (inf : InfringementRecord) :
    getStatus nowMs warningExpiryMinutes inf = specStatus nowMs warningExpiryMinutes inf := by
  unfold getStatus specStatus
  by_cases hA : inf.penalty_due = "No" ∧ inf.penalty_taken = true ∧
      inf.penalty_description ≠ some "Warning"
  · simp [hA]
  · simp only [hA, if_false]
    by_cases hE : isExpired nowMs warningExpiryMinutes inf = true
    · rw [if_pos hE, if_pos ((isExpired_iff nowMs warningExpiryMinutes inf).mp hE)]
    · rw [if_neg hE, if_neg (fun hc => hE ((isExpired_iff nowMs warningExpiryMinutes inf).mpr hc))]

/-- A concrete Warning-type record, timestamped at time 0 (used by the
worked examples in the specification). -/
def warningSample : InfringementRecord :=
  { id := 1, kart_number := 17, turn_number := some 7, observer := "Sarah",
    description := "Blocking", penalty_description := some "Warning",
    penalty_due := "Yes", penalty_taken := false, performed_by := "Op", timestamp := 0 }

/-- **C2.** For every record, the derived status is `Expired` exactly when the
penalty is "Warning" and the elapsed time since its timestamp strictly exceeds
`warning_expiry_minutes` (stated in milliseconds: `now - timestamp >
warningExpiryMinutes * 60000`), and `Warning` exactly when the penalty is
"Warning" and it has not expired — so a record whose penalty is not "Warning"
is never `Expired`.  In particular a Warning record timestamped 200 minutes
ago with `warning_expiry_minutes = 180` has status `Expired`, and the same
record timestamped 10 minutes ago has status `Warning`. -/
theorem warning_expiry_status (nowMs warningExpiryMinutes : Int) (inf : InfringementRecord) :
    (getStatus nowMs warningExpiryMinutes inf = Status.Expired ↔
      (inf.penalty_description = some "Warning" ∧
        warningExpiryMinutes * 60000 < nowMs - inf.timestamp)) ∧
    (getStatus nowMs warningExpiryMinutes inf = Status.Warning ↔
      (inf.penalty_description = some "Warning" ∧
        ¬ warningExpiryMinutes * 60000 < nowMs - inf.timestamp)) ∧
    getStatus (200 * 60000) 180 warningSample = Status.Expired ∧
    getStatus (10 * 60000) 180 warningSample = Status.Warning := by
  have hIff := isExpired_iff nowMs warningExpiryMinutes inf
  refine ⟨?_, ?_, ?_, ?_⟩
  · by_cases hW : inf.penalty_description = some "Warning"
    · by_cases hE : warningExpiryMinutes * 60000 < nowMs - inf.timestamp
      · have hx : isExpired nowMs warningExpiryMinutes inf = true := hIff.mpr ⟨hW, hE⟩
        simp [getStatus, hx, hW, hE]
      · have hx : ¬ isExpired nowMs warningExpiryMinutes inf = true :=
          fun hc => hE (hIff.mp hc).2
        simp only [getStatus, hx, if_false, hW]
        split_ifs <;> simp_all
    · have hx : ¬ isExpired nowMs warningExpiryMinutes inf = true :=
        fun hc => hW (hIff.mp hc).1
      simp only [getStatus, hx, if_false]
      split_ifs <;> simp_all
  · by_cases hW : inf.penalty_description = some "Warning"
    · by_cases hE : warningExpiryMinutes * 60000 < nowMs - inf.timestamp
      · have hx : isExpired nowMs warningExpiryMinutes inf = true := hIff.mpr ⟨hW, hE⟩
        simp [getStatus, hx, hW, hE]
      · have hx : ¬ isExpired nowMs warningExpiryMinutes inf = true :=
          fun hc => hE (hIff.mp hc).2
        simp only [getStatus, hx, if_false, hW]
        split_ifs <;> simp_all
    · have hx : ¬ isExpired nowMs warningExpiryMinutes inf = true :=
        fun hc => hW (hIff.mp hc).1
      simp only [getStatus, hx, if_false]
      split_ifs <;> simp_all
  · have hx : isExpired (200 * 60000) 180 warningSample = true := by
      rw [isExpired_iff]
      exact ⟨rfl, by norm_num [warningSample]⟩
    have hA : ¬ (warningSample.penalty_due = "No" ∧ warningSample.penalty_taken = true ∧
        warningSample.penalty_description ≠ some "Warning") := by simp [warningSample]
    rw [getStatus, if_neg hA, if_pos hx]
  · have hx : ¬ isExpired (10 * 60000) 180 warningSample = true := by
      intro hc
      have h2 := (isExpired_iff (10 * 60000) 180 warningSample).mp hc
      norm_num [warningSample] at h2
    have hA : ¬ (warningSample.penalty_due = "No" ∧ warningSample.penalty_taken = true ∧
        warningSample.penalty_description ≠ some "Warning") := by simp [warningSample]
    rw [getStatus, if_neg hA, if_neg hx]
    simp [warningSample]

/-- Client-side infringement value of the local-state variant
(`Infringement` in `PendingPenalties.tsx`, `EditInfringementDialog.tsx` and
`KronosLogo.tsx`): string id, string form fields, a boolean `penaltyApplied`
flag and a creation timestamp (milliseconds). -/
structure Infringement where
  id : String
  kartNumber : String
  turn : String
  observer : String
  infringement : String
  penaltyDescription : String
  penaltyApplied : Bool
  timestamp : Int
deriving DecidableEq, Repr

/-- `pendingPenalties` from `PendingPenalties.tsx` (lines 32-35): keep the
infringements with `!inf.penaltyApplied && inf.penaltyDescription !== "Warning"`. -/
def pendingPenalties (infringements : List Infringement) : List Infringement :=
  infringements.filter (fun inf => !inf.penaltyApplied && inf.penaltyDescription != "Warning")

/-- **C3.** The pending-penalty list equals exactly the infringement records
with an outstanding penalty whose penalty description is not "Warning": a
record appears in `pendingPenalties` if and only if it is in the input list,
its penalty is outstanding (in this client the outstanding flag is
`penaltyApplied = false`, the encoding of the spec's `penalty_due = "Yes"`,
i.e. not yet applied) and its `penaltyDescription` is not "Warning". -/
theorem pendingPenalties_mem (infringements : List Infringement) (r : Infringement) :
    r ∈ pendingPenalties infringements ↔
      (r ∈ infringements ∧ r.penaltyApplied = false ∧ r.penaltyDescription ≠ "Warning") := by
  simp [pendingPenalties, List.mem_filter, bne_iff_ne, Bool.not_eq_true']

/-- `handleSave` from `EditInfringementDialog.tsx` (lines 55-71): with no
record under edit or any of the five form fields empty nothing is saved;
otherwise the saved record is the original spread with the five edited
fields overriding (`...infringement` keeps `id`, `penaltyApplied` and
`timestamp`). -/
def handleSave (infringement : Option Infringement)
    (kartNumber turn observer infringementType penaltyDescription : String) :
    Option Infringement :=
  match infringement with
  | none => none
  | some orig =>
      if kartNumber = "" ∨ turn = "" ∨ observer = "" ∨ infringementType = "" ∨
          penaltyDescription = "" then none
      else some { orig with
        kartNumber := kartNumber, turn := turn, observer := observer,
        infringement := infringementType, penaltyDescription := penaltyDescription }

/-- **C9.** Updating a record never changes its id or its timestamp: whatever
edit of the kart number, turn, observer, infringement category and penalty
fields is saved, the record produced by `handleSave` has the same `id` and
the same `timestamp` as the record being edited. -/
theorem handleSave_preserves_id_timestamp (orig : Infringement)
    (kartNumber turn observer infringementType penaltyDescription : String)
    (r : Infringement)
    (h : handleSave (some orig) kartNumber turn observer infringementType penaltyDescription
        = some r) :
    r.id = orig.id ∧ r.timestamp = orig.timestamp := by
  have h2 : (if kartNumber = "" ∨ turn = "" ∨ observer = "" ∨ infringementType = "" ∨
      penaltyDescription = "" then (none : Option Infringement)
      else some { orig with
        kartNumber := kartNumber, turn := turn, observer := observer,
        infringement := infringementType, penaltyDescription := penaltyDescription })
      = some r := h
  by_cases hc : kartNumber = "" ∨ turn = "" ∨ observer = "" ∨ infringementType = "" ∨
      penaltyDescription = ""
  · rw [if_pos hc] at h2
    exact absurd h2 (by simp)
  · rw [if_neg hc] at h2
    cases h2
    exact ⟨rfl, rfl⟩

/-- A concrete client-side infringement used to instantiate the theorems. -/
def sampleInf : Infringement :=
  { id := "1", kartNumber := "42", turn := "Turn 3", observer := "John",
    infringement := "Blocking", penaltyDescription := "5 Sec",
    penaltyApplied := false, timestamp := 0 }

theorem handleSave_preserves_id_timestamp_witness :
    (⟨"1", "7", "Turn 1", "Ann", "Collision", "10 Sec", false, 0⟩ : Infringement).id
        = sampleInf.id ∧
    (⟨"1", "7", "Turn 1", "Ann", "Collision", "10 Sec", false, 0⟩ : Infringement).timestamp
        = sampleInf.timestamp :=
  handleSave_preserves_id_timestamp sampleInf "7" "Turn 1" "Ann" "Collision" "10 Sec"
    ⟨"1", "7", "Turn 1", "Ann", "Collision", "10 Sec", false, 0⟩ (by decide)

/-- `handleApplyPenalty` from `KronosLogo.tsx` (lines 158-164): map over the
list, replacing the record whose id matches with a copy whose
`penaltyApplied` flag is set to `true`, and leaving every other record as
it is. -/
def handleApplyPenalty (id : String) (infringements : List Infringement) : List Infringement :=
  infringements.map (fun inf =>
    if inf.id = id then { inf with penaltyApplied := true } else inf)

/-- **C10.** Applying a penalty modifies at most the applied flag of the
target record: positionally, every record whose id differs from the target id
is completely unchanged, every field of a record carrying the target id other
than its `penaltyApplied` flag is unchanged (and that flag becomes `true`),
and if no record carries the id the whole list is unchanged. -/
theorem handleApplyPenalty_frame (id : String) (infringements : List Infringement) :
    List.Forall₂ (fun orig new =>
        (orig.id ≠ id → new = orig) ∧
        (orig.id = id → new.id = orig.id ∧ new.kartNumber = orig.kartNumber ∧
          new.turn = orig.turn ∧ new.observer = orig.observer ∧
          new.infringement = orig.infringement ∧
          new.penaltyDescription = orig.penaltyDescription ∧
          new.timestamp = orig.timestamp ∧ new.penaltyApplied = true))
      infringements (handleApplyPenalty id infringements) ∧
    ((∀ r ∈ infringements, r.id ≠ id) → handleApplyPenalty id infringements = infringements) := by
  constructor
  · induction infringements with
    | nil => exact List.Forall₂.nil
    | cons a l ih =>
        refine List.Forall₂.cons ?_ ih
        by_cases h : a.id = id
        · simp [h]
        · simp [h]
  · have key : ∀ l : List Infringement, (∀ r ∈ l, r.id ≠ id) →
        handleApplyPenalty id l = l := by
      intro l
      induction l with
      | nil => intro _; rfl
      | cons a t ih =>
          intro hall
          have ht := ih (fun r hr => hall r (List.mem_cons_of_mem a hr))
          unfold handleApplyPenalty
          unfold handleApplyPenalty at ht
          simp only [List.map_cons]
          rw [if_neg (hall a (List.mem_cons_self a t)), ht]
    exact key infringements

theorem handleApplyPenalty_frame_witness :
    handleApplyPenalty "2" [sampleInf] = [sampleInf] :=
  (handleApplyPenalty_frame "2" [sampleInf]).2 (by decide)

/-- The state of the creation form (`InfringementForm` in
`src/unnamed/part_002`): five string-valued controlled inputs. -/
structure FormState where
  kartNumber : String
  turn : String
  observer : String
  infringement : String
  penaltyDescription : String
deriving DecidableEq, Repr

/-- The payload passed to `onSubmit` by the creation form
(`src/unnamed/part_002`, lines 34-42): the five field values plus
`penaltyApplied: false` and the submission timestamp (`new Date()`). -/
structure SubmissionPayload where
  kartNumber : String
  turn : String
  observer : String
  infringement : String
  penaltyDescription : String
  penaltyApplied : Bool
  timestamp : Int
deriving DecidableEq, Repr

/-- `handleSubmit` from `src/unnamed/part_002` (lines 27-50): when any of
`kartNumber`, `turn`, `observer`, `infringement`, `penaltyDescription` is
falsy (the empty string) the handler returns without submitting anything;
otherwise it submits the five values with `penaltyApplied: false` and the
current time as timestamp. -/
def handleSubmit (nowMs : Int) (f : FormState) : Option SubmissionPayload :=
  if f.kartNumber = "" ∨ f.turn = "" ∨ f.observer = "" ∨ f.infringement = "" ∨
      f.penaltyDescription = "" then none
  else some
    { kartNumber := f.kartNumber, turn := f.turn, observer := f.observer,
      infringement := f.infringement, penaltyDescription := f.penaltyDescription,
      penaltyApplied := false, timestamp := nowMs }

/-- **C8 (counterexample).** The claim says a payload whose `kart_number`,
`observer` and `description` are non-empty succeeds even when the optional
`turn_number` and `penalty_description` are absent.  Concretely: with kart
number "7", observer "J" and description "Blocking" all non-empty but the
turn field empty, the form's submit handler creates nothing. -/
theorem create_three_fields_insufficient :
    handleSubmit 0 ⟨"7", "", "J", "Blocking", "5 Sec"⟩ = none ∧
    ("7" : String) ≠ "" ∧ ("J" : String) ≠ "" ∧ ("Blocking" : String) ≠ "" := by
  refine ⟨rfl, ?_, ?_, ?_⟩ <;> decide

/-- **C8 (amended).** Creation via the form validates that all five fields —
kart number, turn, observer, infringement description and penalty
description — are non-empty: the handler produces a submission if and only
if every one of the five fields is non-empty, and a form state with any of
them empty produces no submission. -/
theorem handleSubmit_isSome_iff (nowMs : Int) (f : FormState) :
    (handleSubmit nowMs f).isSome = true ↔
      (f.kartNumber ≠ "" ∧ f.turn ≠ "" ∧ f.observer ≠ "" ∧ f.infringement ≠ "" ∧
        f.penaltyDescription ≠ "") := by
  unfold handleSubmit
  by_cases hc : f.kartNumber = "" ∨ f.turn = "" ∨ f.observer = "" ∨ f.infringement = "" ∨
      f.penaltyDescription = ""
  · rw [if_pos hc]
    simp only [Option.isSome_none]
    constructor
    · intro hfalse
      exact absurd hfalse (by simp)
    · intro hall
      rcases hc with h | h | h | h | h
      · exact absurd h hall.1
      · exact absurd h hall.2.1
      · exact absurd h hall.2.2.1
      · exact absurd h hall.2.2.2.1
      · exact absurd h hall.2.2.2.2
  · rw [if_neg hc]
    push_neg at hc
    simp [hc]

/-- The error taxonomy of the backend service relevant to these claims. -/
inductive ServiceError where
  | NotFound
  | ValidationError
deriving DecidableEq, Repr

/-- Modelled from the spec: the backend infringement service operation
`applyPenalty(id, performedBy)` is not under `src/` (only its frontend
callers are); per the specification it "fails with NotFound; sets
`penalty_taken = true`, `penalty_due = \"No\"`, records `performedBy`". -/
def Service.applyPenalty (recs : List InfringementRecord) (id : Int) (performedBy : String) :
    Except ServiceError (List InfringementRecord) :=
  if recs.any (fun r => r.id == id) then
    Except.ok (recs.map (fun r =>
      if r.id = id then
        { r with penalty_taken := true, penalty_due := "No", performed_by := performedBy }
      else r))
  else Except.error ServiceError.NotFound

/-- Modelled from the spec: the partial-update payload of the backend
`update(id, payload)` operation, which is not under `src/`; "only supplied
fields change", so each field is optional. -/
structure UpdatePayload where
  kart_number : Option Int
  turn_number : Option Int
  observer : Option String
  description : Option String
  penalty_description : Option String
  performed_by : Option String
deriving DecidableEq, Repr

/-- Modelled from the spec: merging a partial-update payload into a record —
only supplied fields change; `id` and `timestamp` are never part of the
payload. -/
def applyUpdate (r : InfringementRecord) (p : UpdatePayload) : InfringementRecord :=
  { r with
    kart_number := p.kart_number.getD r.kart_number,
    turn_number := match p.turn_number with
      | some t => some t
      | none => r.turn_number,
    observer := p.observer.getD r.observer,
    description := p.description.getD r.description,
    penalty_description := match p.penalty_description with
      | some s => some s
      | none => r.penalty_description,
    performed_by := p.performed_by.getD r.performed_by }

/-- Modelled from the spec: the backend `update(id, payload)` operation,
which is not under `src/` (only its frontend callers are); it "fails with
NotFound if id absent in active session's store", otherwise replaces the
target record by the merge of the payload into it. -/
def Service.update (recs : List InfringementRecord) (id : Int) (p : UpdatePayload) :
    Except ServiceError (List InfringementRecord) :=
  if recs.any (fun r => r.id == id) then
    Except.ok (recs.map (fun r => if r.id = id then applyUpdate r p else r))
  else Except.error ServiceError.NotFound

/-- Modelled from the spec: the backend `delete(id)` operation, which is not
under `src/` (only its frontend callers are); it "fails with NotFound",
otherwise removes the record irreversibly. -/
def Service.delete (recs : List InfringementRecord) (id : Int) :
    Except ServiceError (List InfringementRecord) :=
  if recs.any (fun r => r.id == id) then
    Except.ok (recs.filter (fun r => r.id != id))
  else Except.error ServiceError.NotFound

theorem any_id_map_applyPenalty (recs : List InfringementRecord) (id tid : Int)
    (pb : String) :
    ((recs.map (fun r =>
      if r.id = id then
        { r with penalty_taken := true, penalty_due := "No", performed_by := pb }
      else r)).any (fun r => r.id == tid)) = recs.any (fun r => r.id == tid) := by
  induction recs with
  | nil => rfl
  | cons a l ih =>
      simp only [List.map_cons, List.any_cons, ih]
      by_cases h : a.id = id
      · simp [h]
      · simp [h]

/-- **C4.** `applyPenalty` is idempotent in end-state: for every record list
and every id present in it, applying the penalty twice to that id (with the
same operator, as the client always passes the same `performed_by`) yields
the same result as applying it once, and after the call every record carrying
the target id has `penalty_taken = true` and `penalty_due = "No"`. -/
theorem applyPenalty_idempotent (recs : List InfringementRecord) (id : Int) (pb : String)
    (h : ∃ r ∈ recs, r.id = id) :
    ((Service.applyPenalty recs id pb).bind (fun l => Service.applyPenalty l id pb)
        = Service.applyPenalty recs id pb) ∧
    (∀ l, Service.applyPenalty recs id pb = Except.ok l →
      ∀ r ∈ l, r.id = id → r.penalty_taken = true ∧ r.penalty_due = "No") := by
  have hany : recs.any (fun r => r.id == id) = true := by
    rw [List.any_eq_true]
    obtain ⟨r, hr, hid⟩ := h
    exact ⟨r, hr, by rw [beq_iff_eq]; exact hid⟩
  constructor
  · unfold Service.applyPenalty
    rw [if_pos hany]
    rw [Except.bind]
    show Service.applyPenalty _ id pb = _
    unfold Service.applyPenalty
    rw [if_pos (by rw [any_id_map_applyPenalty]; exact hany)]
    rw [List.map_map]
    refine congrArg (fun f => Except.ok (List.map f recs)) ?_
    funext r
    by_cases hr : r.id = id
    · simp [Function.comp, hr]
    · simp [Function.comp, hr]
  · intro l hl r hr hid
    unfold Service.applyPenalty at hl
    rw [if_pos hany] at hl
    cases hl
    rw [List.mem_map] at hr
    obtain ⟨x, _, hx⟩ := hr
    by_cases hxid : x.id = id
    · rw [if_pos hxid] at hx
      rw [← hx]
      exact ⟨rfl, rfl⟩
    · rw [if_neg hxid] at hx
      exact absurd (hx ▸ hid) hxid

/-- A concrete server-side record used to instantiate the theorems. -/
def sampleRecord : InfringementRecord :=
  { id := 1, kart_number := 7, turn_number := none, observer := "J",
    description := "Blocking", penalty_description := some "5 Sec",
    penalty_due := "Yes", penalty_taken := false, performed_by := "Op", timestamp := 0 }

theorem applyPenalty_idempotent_witness :
    ((Service.applyPenalty [sampleRecord] 1 "Ops").bind
        (fun l => Service.applyPenalty l 1 "Ops")
      = Service.applyPenalty [sampleRecord] 1 "Ops") ∧
    (∀ l, Service.applyPenalty [sampleRecord] 1 "Ops" = Except.ok l →
      ∀ r ∈ l, r.id = 1 → r.penalty_taken = true ∧ r.penalty_due = "No") :=
  applyPenalty_idempotent [sampleRecord] 1 "Ops" ⟨sampleRecord, by decide, by decide⟩

/-- **C7.** Operations on an absent id fail with `NotFound`: whenever no
record of the store carries the id, `update`, `applyPenalty` and `delete`
each return the `NotFound` error rather than succeeding. -/
theorem absent_id_notFound (recs : List InfringementRecord) (id : Int)
    (p : UpdatePayload) (pb : String) (h : ∀ r ∈ recs, r.id ≠ id) :
    Service.update recs id p = Except.error ServiceError.NotFound ∧
    Service.applyPenalty recs id pb = Except.error ServiceError.NotFound ∧
    Service.delete recs id = Except.error ServiceError.NotFound := by
  have hany : ¬ recs.any (fun r => r.id == id) = true := by
    rw [List.any_eq_true]
    rintro ⟨r, hr, hid⟩
    exact h r hr (by rwa [beq_iff_eq] at hid)
  exact ⟨by unfold Service.update; rw [if_neg hany],
    by unfold Service.applyPenalty; rw [if_neg hany],
    by unfold Service.delete; rw [if_neg hany]⟩

theorem absent_id_notFound_witness :
    Service.update [sampleRecord] 99 ⟨none, none, none, none, none, none⟩
        = Except.error ServiceError.NotFound ∧
    Service.applyPenalty [sampleRecord] 99 "Ops" = Except.error ServiceError.NotFound ∧
    Service.delete [sampleRecord] 99 = Except.error ServiceError.NotFound :=
  absent_id_notFound [sampleRecord] 99 ⟨none, none, none, none, none, none⟩ "Ops" (by decide)

/-- `handleDeleteInfringement` from `App.tsx` (lines 242-254): after the
server-side delete succeeds, the client removes the id from both of its
lists, keeping from `infringements` exactly the records with
`inf.id !== id` and from `pendingPenalties` exactly those with
`penalty.id !== id` (the pending list is a read projection of
`InfringementRecord`, so it carries the same record type here). -/
def handleDeleteInfringement (id : Int)
    (infringements pendingPenalties : List InfringementRecord) :
    List InfringementRecord × List InfringementRecord :=
  (infringements.filter (fun inf => inf.id != id),
    pendingPenalties.filter (fun penalty => penalty.id != id))

/-- **C6.** Deleting a record with a given id removes it from both the full
infringement list and the pending-penalty list: a record is in either output
list if and only if it was in the corresponding input list and its id differs
from the deleted id — so no record with the deleted id remains, and every
record with a different id is still present. -/
theorem delete_removes_id (id : Int)
    (infringements pendingPenalties : List InfringementRecord) (r : InfringementRecord) :
    (r ∈ (handleDeleteInfringement id infringements pendingPenalties).1 ↔
      (r ∈ infringements ∧ r.id ≠ id)) ∧
    (r ∈ (handleDeleteInfringement id infringements pendingPenalties).2 ↔
      (r ∈ pendingPenalties ∧ r.id ≠ id)) := by
  constructor
  · simp [handleDeleteInfringement, List.mem_filter, bne_iff_ne]
  · simp [handleDeleteInfringement, List.mem_filter, bne_iff_ne]

/-- Numeric value of a decimal digit character, `none` otherwise. -/
def digitVal (c : Char) : Option Nat :=
  if 48 ≤ c.toNat ∧ c.toNat ≤ 57 then some (c.toNat - 48) else none

/-- Left-to-right accumulation of a digit string into a natural number;
`none` as soon as a non-digit appears. -/
def parseDigitsAux : List Char → Nat → Option Nat
  | [], acc => some acc
  | c :: cs, acc =>
      match digitVal c with
      | some d => parseDigitsAux cs (acc * 10 + d)
      | none => none

/-- Parse a non-empty all-digit character list into a natural number. -/
def parseDigits (l : List Char) : Option Nat :=
  if l = [] then none else parseDigitsAux l 0

/-- The decimal digits of a natural number, least significant first
(empty for zero). -/
def natDigitsRev (n : Nat) : List Char :=
  if h : n = 0 then []
  else Nat.digitChar (n % 10) :: natDigitsRev (n / 10)
decreasing_by exact Nat.div_lt_self (Nat.pos_of_ne_zero h) (by norm_num)

/-- The decimal digit string of a natural number. -/
def natChars (n : Nat) : List Char :=
  if n = 0 then ['0'] else (natDigitsRev n).reverse

/-- Model of JavaScript `Number.prototype.toString` on integers:
the usual signed decimal rendering. -/
def jsToString (k : Int) : String :=
  if k < 0 then String.mk ('-' :: natChars k.natAbs) else String.mk (natChars k.natAbs)

/-- The characters JavaScript treats as whitespace (ECMA-262 WhiteSpace
and LineTerminator): TAB, LF, VT, FF, CR, space, NBSP, the Unicode
space-separator category (U+1680, U+2000-U+200A, U+202F, U+205F, U+3000),
the line and paragraph separators (U+2028, U+2029) and the BOM (U+FEFF). -/
def jsWhitespace (c : Char) : Bool :=
  c.toNat = 0x9 || c.toNat = 0xA || c.toNat = 0xB || c.toNat = 0xC || c.toNat = 0xD ||
    c.toNat = 0x20 || c.toNat = 0xA0 || c.toNat = 0x1680 ||
    (0x2000 ≤ c.toNat && c.toNat ≤ 0x200A) ||
    c.toNat = 0x2028 || c.toNat = 0x2029 || c.toNat = 0x202F || c.toNat = 0x205F ||
    c.toNat = 0x3000 || c.toNat = 0xFEFF

/-- Model of JavaScript `String.prototype.trim`: strip leading and trailing
`jsWhitespace` characters. -/
def jsTrim (s : String) : String :=
  String.mk (((s.data.dropWhile jsWhitespace).reverse.dropWhile jsWhitespace).reverse)

/-- The result of JavaScript `Number(string)`: NaN, one of the two
infinities, or a finite value, represented exactly as
`mantissa * 10 ^ exponent` (every finite value of the string numeric
grammar has this form).  JavaScript numbers are IEEE-754 doubles; here the
literal's exact value stands in for its rounded double.  Every comparison
the filter makes agrees between the two unless the search literal needs
more than the double's 15-17 significant digits, or overflows the double
range, to distinguish — beyond any practically typable kart-number
search. -/
inductive JsNumber where
  | nan
  | posInf
  | negInf
  | finite (mantissa exponent : Int)
deriving DecidableEq, Repr

/-- Unary minus on a converted number (for a leading `-` sign). -/
def JsNumber.neg : JsNumber → JsNumber
  | nan => nan
  | posInf => negInf
  | negInf => posInf
  | finite m e => finite (-m) e

/-- The exact rational value of a converted number, when it is finite. -/
def JsNumber.toRat? : JsNumber → Option ℚ
  | finite m e => some ((m : ℚ) * 10 ^ e)
  | _ => none

/-- Numeric value of a hexadecimal digit character, `none` otherwise. -/
def hexVal (c : Char) : Option Nat :=
  if 48 ≤ c.toNat ∧ c.toNat ≤ 57 then some (c.toNat - 48)
  else if 97 ≤ c.toNat ∧ c.toNat ≤ 102 then some (c.toNat - 87)
  else if 65 ≤ c.toNat ∧ c.toNat ≤ 70 then some (c.toNat - 55)
  else none

/-- Numeric value of an octal digit character, `none` otherwise. -/
def octVal (c : Char) : Option Nat :=
  if 48 ≤ c.toNat ∧ c.toNat ≤ 55 then some (c.toNat - 48) else none

/-- Numeric value of a binary digit character, `none` otherwise. -/
def binVal (c : Char) : Option Nat :=
  if 48 ≤ c.toNat ∧ c.toNat ≤ 49 then some (c.toNat - 48) else none

/-- Left-to-right accumulation of a digit string in a given base;
`none` as soon as a character is not a digit of that base. -/
def parseBaseAux (base : Nat) (dv : Char → Option Nat) : List Char → Nat → Option Nat
  | [], acc => some acc
  | c :: cs, acc =>
      match dv c with
      | some d => parseBaseAux base dv cs (acc * base + d)
      | none => none

/-- A non-decimal integer literal body (after `0x`/`0o`/`0b`): a non-empty
run of digits of the base, and nothing else. -/
def parseRadix (base : Nat) (dv : Char → Option Nat) (l : List Char) : JsNumber :=
  if l = [] then JsNumber.nan
  else
    match parseBaseAux base dv l 0 with
    | some n => JsNumber.finite n 0
    | none => JsNumber.nan

/-- The value of an all-decimal-digit character list (callers establish the
all-digit property; the default is never reached then). -/
def digitsToNat (l : List Char) : Nat := (parseDigitsAux l 0).getD 0

/-- An exponent part after `e`/`E`: an optional sign followed by a
non-empty run of decimal digits, and nothing else. -/
def parseExponent (l : List Char) : Option Int :=
  match l with
  | '+' :: rest => (parseDigits rest).map (fun (n : Nat) => (n : Int))
  | '-' :: rest => (parseDigits rest).map (fun (n : Nat) => -(n : Int))
  | _ => (parseDigits l).map (fun (n : Nat) => (n : Int))

/-- ECMA-262 StrUnsignedDecimalLiteral: `Infinity`, or decimal digits with
an optional `.` fraction and an optional exponent (`DecimalDigits .
DecimalDigits? ExponentPart?`, `. DecimalDigits ExponentPart?` or
`DecimalDigits ExponentPart?`); anything else is NaN.  The value is kept
exactly as mantissa (all digits run together) times ten to a (possibly
negative) power. -/
def parseUnsignedDecimal (l : List Char) : JsNumber :=
  if l = ['I', 'n', 'f', 'i', 'n', 'i', 't', 'y'] then JsNumber.posInf
  else
    match l.dropWhile (fun c => (digitVal c).isSome) with
    | [] =>
        if l.takeWhile (fun c => (digitVal c).isSome) = [] then JsNumber.nan
        else JsNumber.finite (digitsToNat (l.takeWhile (fun c => (digitVal c).isSome))) 0
    | '.' :: rest2 =>
        if l.takeWhile (fun c => (digitVal c).isSome) = [] ∧
            rest2.takeWhile (fun c => (digitVal c).isSome) = [] then JsNumber.nan
        else
          match rest2.dropWhile (fun c => (digitVal c).isSome) with
          | [] =>
              JsNumber.finite
                (digitsToNat (l.takeWhile (fun c => (digitVal c).isSome) ++
                  rest2.takeWhile (fun c => (digitVal c).isSome)))
                (-(((rest2.takeWhile (fun c => (digitVal c).isSome)).length : Int)))
          | c3 :: rest4 =>
              if c3 = 'e' ∨ c3 = 'E' then
                match parseExponent rest4 with
                | some ex =>
                    JsNumber.finite
                      (digitsToNat (l.takeWhile (fun c => (digitVal c).isSome) ++
                        rest2.takeWhile (fun c => (digitVal c).isSome)))
                      (ex - ((rest2.takeWhile (fun c => (digitVal c).isSome)).length : Int))
                | none => JsNumber.nan
              else JsNumber.nan
    | c2 :: rest2 =>
        if c2 = 'e' ∨ c2 = 'E' then
          if l.takeWhile (fun c => (digitVal c).isSome) = [] then JsNumber.nan
          else
            match parseExponent rest2 with
            | some ex =>
                JsNumber.finite (digitsToNat (l.takeWhile (fun c => (digitVal c).isSome))) ex
            | none => JsNumber.nan
        else JsNumber.nan

/-- ECMA-262 StrNumericLiteral on a whitespace-free character list: empty
is 0; a `-`/`+` sign applies to an unsigned decimal literal (so a signed
hex literal is NaN, as in JavaScript); `0x`/`0X`, `0o`/`0O`, `0b`/`0B`
introduce hex, octal and binary integer literals; everything else is an
unsigned decimal literal. -/
def jsStrToNumList : List Char → JsNumber
  | [] => JsNumber.finite 0 0
  | c :: rest =>
      if c = '-' then (parseUnsignedDecimal rest).neg
      else if c = '+' then parseUnsignedDecimal rest
      else if c = '0' then
        match rest with
        | [] => parseUnsignedDecimal (c :: rest)
        | c2 :: rest2 =>
            if c2 = 'x' ∨ c2 = 'X' then parseRadix 16 hexVal rest2
            else if c2 = 'o' ∨ c2 = 'O' then parseRadix 8 octVal rest2
            else if c2 = 'b' ∨ c2 = 'B' then parseRadix 2 binVal rest2
            else parseUnsignedDecimal (c :: rest)
      else parseUnsignedDecimal (c :: rest)

/-- Model of JavaScript `Number(string)` on strings with no surrounding
whitespace (its arguments in this embedding are either `jsTrim` output or
digit renderings; `Number` additionally ignores surrounding `jsWhitespace`,
which `jsTrim` has already removed). -/
def jsStrToNum (s : String) : JsNumber := jsStrToNumList s.data

/-- JavaScript `===` on two converted numbers: NaN is unequal to
everything including itself, each infinity equals only itself, and two
finite values are equal when their exact values agree (`-0 === 0` holds
because `-0 = 0` on exact mantissas). -/
def jsNumEq : JsNumber → JsNumber → Bool
  | JsNumber.finite m1 e1, JsNumber.finite m2 e2 =>
      if e1 ≤ e2 then m1 == m2 * 10 ^ (e2 - e1).toNat
      else m1 * 10 ^ (e1 - e2).toNat == m2
  | JsNumber.posInf, JsNumber.posInf => true
  | JsNumber.negInf, JsNumber.negInf => true
  | _, _ => false

theorem parseDigitsAux_append (l1 l2 : List Char) : ∀ acc : Nat,
    parseDigitsAux (l1 ++ l2) acc =
      match parseDigitsAux l1 acc with
      | some a => parseDigitsAux l2 a
      | none => none := by
  induction l1 with
  | nil => intro acc; rfl
  | cons c cs ih =>
      intro acc
      show parseDigitsAux (c :: (cs ++ l2)) acc = _
      cases hd : digitVal c with
      | some d => simp only [parseDigitsAux, hd, ih]
      | none => simp only [parseDigitsAux, hd]

theorem digitVal_digitChar (d : Nat) (h : d < 10) : digitVal (Nat.digitChar d) = some d := by
  interval_cases d <;> decide

theorem parseDigitsAux_natDigitsRev (n : Nat) : ∀ acc : Nat,
    parseDigitsAux ((natDigitsRev n).reverse) acc =
      some (acc * 10 ^ (natDigitsRev n).length + n) := by
  induction n using Nat.strong_induction_on with
  | _ n ih =>
      intro acc
      by_cases h : n = 0
      · subst h
        rw [natDigitsRev]
        simp [parseDigitsAux]
      · rw [natDigitsRev]
        rw [dif_neg h]
        rw [List.reverse_cons]
        rw [parseDigitsAux_append]
        rw [ih (n / 10) (Nat.div_lt_self (Nat.pos_of_ne_zero h) (by norm_num)) acc]
        show parseDigitsAux [Nat.digitChar (n % 10)] _ = _
        simp only [parseDigitsAux, digitVal_digitChar (n % 10) (Nat.mod_lt n (by norm_num))]
        have hm : 10 * (n / 10) + n % 10 = n := Nat.div_add_mod n 10
        have harith : (acc * 10 ^ (natDigitsRev (n / 10)).length + n / 10) * 10 + n % 10 =
            acc * 10 ^ ((natDigitsRev (n / 10)).length + 1) + n := by
          calc (acc * 10 ^ (natDigitsRev (n / 10)).length + n / 10) * 10 + n % 10
              = acc * (10 ^ (natDigitsRev (n / 10)).length * 10) +
                (10 * (n / 10) + n % 10) := by ring
            _ = acc * 10 ^ ((natDigitsRev (n / 10)).length + 1) + n := by
                rw [hm, pow_succ]
        rw [harith]
        congr 1

theorem natDigitsRev_ne_nil (n : Nat) (h : n ≠ 0) : natDigitsRev n ≠ [] := by
  rw [natDigitsRev, dif_neg h]
  exact List.cons_ne_nil _ _

theorem parseDigits_natChars (n : Nat) : parseDigits (natChars n) = some n := by
  by_cases h : n = 0
  · subst h
    decide
  · rw [natChars, if_neg h, parseDigits,
      if_neg (by simpa using natDigitsRev_ne_nil n h),
      parseDigitsAux_natDigitsRev]
    simp

theorem mem_natDigitsRev (n : Nat) : ∀ c ∈ natDigitsRev n, ∃ d, d < 10 ∧ c = Nat.digitChar d := by
  induction n using Nat.strong_induction_on with
  | _ n ih =>
      intro c hc
      by_cases h : n = 0
      · subst h
        rw [natDigitsRev] at hc
        simp at hc
      · rw [natDigitsRev, dif_neg h] at hc
        rcases List.mem_cons.mp hc with h1 | h1
        · exact ⟨n % 10, Nat.mod_lt n (by norm_num), h1⟩
        · exact ih (n / 10) (Nat.div_lt_self (Nat.pos_of_ne_zero h) (by norm_num)) c h1

theorem digitChar_ne_sign (d : Nat) (h : d < 10) :
    Nat.digitChar d ≠ '-' ∧ Nat.digitChar d ≠ '+' := by
  interval_cases d <;> exact ⟨by decide, by decide⟩

theorem mem_natChars_ne_sign (n : Nat) (c : Char) (hc : c ∈ natChars n) :
    c ≠ '-' ∧ c ≠ '+' := by
  by_cases h : n = 0
  · subst h
    rw [natChars] at hc
    simp at hc
    subst hc
    exact ⟨by decide, by decide⟩
  · rw [natChars, if_neg h, List.mem_reverse] at hc
    obtain ⟨d, hd, hcd⟩ := mem_natDigitsRev n c hc
    exact hcd ▸ digitChar_ne_sign d hd

theorem natChars_ne_nil (n : Nat) : natChars n ≠ [] := by
  by_cases h : n = 0
  · rw [natChars, if_pos h]
    exact List.cons_ne_nil _ _
  · rw [natChars, if_neg h]
    simpa using natDigitsRev_ne_nil n h

theorem mem_natChars_digit (n : Nat) (c : Char) (hc : c ∈ natChars n) :
    ∃ d, d < 10 ∧ c = Nat.digitChar d := by
  by_cases h : n = 0
  · subst h
    rw [natChars] at hc
    simp at hc
    subst hc
    exact ⟨0, by norm_num, rfl⟩
  · rw [natChars, if_neg h, List.mem_reverse] at hc
    exact mem_natDigitsRev n c hc

theorem digitChar_not_letter (d : Nat) (h : d < 10) :
    Nat.digitChar d ≠ 'I' ∧ ¬ (Nat.digitChar d = 'x' ∨ Nat.digitChar d = 'X') ∧
    ¬ (Nat.digitChar d = 'o' ∨ Nat.digitChar d = 'O') ∧
    ¬ (Nat.digitChar d = 'b' ∨ Nat.digitChar d = 'B') := by
  interval_cases d <;> exact ⟨by decide, by decide, by decide, by decide⟩

theorem takeWhile_all_eq_self (p : Char → Bool) :
    ∀ l : List Char, (∀ c ∈ l, p c = true) → l.takeWhile p = l := by
  intro l
  induction l with
  | nil => intro _; rfl
  | cons a t ih =>
      intro hall
      simp only [List.takeWhile_cons, hall a (List.mem_cons_self a t), if_true]
      rw [ih (fun c hc => hall c (List.mem_cons_of_mem a hc))]

theorem dropWhile_all_eq_nil (p : Char → Bool) :
    ∀ l : List Char, (∀ c ∈ l, p c = true) → l.dropWhile p = [] := by
  intro l
  induction l with
  | nil => intro _; rfl
  | cons a t ih =>
      intro hall
      simp only [List.dropWhile_cons, hall a (List.mem_cons_self a t), if_true]
      exact ih (fun c hc => hall c (List.mem_cons_of_mem a hc))

theorem digitsToNat_natChars (n : Nat) : digitsToNat (natChars n) = n := by
  have h := parseDigits_natChars n
  rw [parseDigits, if_neg (natChars_ne_nil n)] at h
  rw [digitsToNat, h]
  rfl

theorem natChars_all_digits (n : Nat) :
    ∀ c ∈ natChars n, ((digitVal c).isSome : Bool) = true := by
  intro c hc
  obtain ⟨d, hd, rfl⟩ := mem_natChars_digit n c hc
  rw [digitVal_digitChar d hd]
  rfl

theorem parseUnsignedDecimal_natChars (n : Nat) :
    parseUnsignedDecimal (natChars n) = JsNumber.finite n 0 := by
  have hInf : natChars n ≠ ['I', 'n', 'f', 'i', 'n', 'i', 't', 'y'] := by
    intro h
    have hmem : ('I' : Char) ∈ natChars n := by
      rw [h]
      exact List.mem_cons_self _ _
    obtain ⟨d, hd, he⟩ := mem_natChars_digit n 'I' hmem
    exact absurd he.symm (digitChar_not_letter d hd).1
  have hTake : (natChars n).takeWhile (fun c => (digitVal c).isSome) = natChars n :=
    takeWhile_all_eq_self _ (natChars n) (natChars_all_digits n)
  have hDrop : (natChars n).dropWhile (fun c => (digitVal c).isSome) = [] :=
    dropWhile_all_eq_nil _ (natChars n) (natChars_all_digits n)
  rw [parseUnsignedDecimal, if_neg hInf, hDrop]
  show (if (natChars n).takeWhile (fun c => (digitVal c).isSome) = [] then JsNumber.nan
      else JsNumber.finite (digitsToNat ((natChars n).takeWhile (fun c => (digitVal c).isSome))) 0)
      = JsNumber.finite n 0
  rw [hTake, if_neg (natChars_ne_nil n), digitsToNat_natChars]

/-- Converting the decimal rendering of an integer back through `Number`
yields the integer exactly (`Number(k.toString()) === k`). -/
theorem jsStrToNum_jsToString (k : Int) : jsStrToNum (jsToString k) = JsNumber.finite k 0 := by
  by_cases hk : k < 0
  · rw [jsToString, if_pos hk]
    show jsStrToNumList ('-' :: natChars k.natAbs) = JsNumber.finite k 0
    simp only [jsStrToNumList]
    rw [if_pos trivial, parseUnsignedDecimal_natChars]
    show JsNumber.finite (-((k.natAbs : Nat) : Int)) 0 = JsNumber.finite k 0
    congr 1
    omega
  · rw [jsToString, if_neg hk]
    show jsStrToNumList (natChars k.natAbs) = JsNumber.finite k 0
    obtain ⟨c, cs, hl⟩ := List.exists_cons_of_ne_nil (natChars_ne_nil k.natAbs)
    have hcmem : c ∈ natChars k.natAbs := by
      rw [hl]
      exact List.mem_cons_self c cs
    obtain ⟨d, hd, hcd⟩ := mem_natChars_digit k.natAbs c hcmem
    have hsign := digitChar_ne_sign d hd
    have hfin : parseUnsignedDecimal (c :: cs) = JsNumber.finite ((k.natAbs : Nat) : Int) 0 := by
      rw [← hl, parseUnsignedDecimal_natChars]
    have hk2 : ((k.natAbs : Nat) : Int) = k := by omega
    rw [hl]
    simp only [jsStrToNumList]
    rw [if_neg (by rw [hcd]; exact hsign.1),
      if_neg (by rw [hcd]; exact hsign.2)]
    by_cases hc0 : c = '0'
    · rw [if_pos hc0]
      cases cs with
      | nil =>
          show parseUnsignedDecimal (c :: ([] : List Char)) = JsNumber.finite k 0
          rw [hfin]
          exact congrArg (fun m => JsNumber.finite m 0) hk2
      | cons c2 cs2 =>
          have hc2mem : c2 ∈ natChars k.natAbs := by
            rw [hl]
            exact List.mem_cons_of_mem _ (List.mem_cons_self _ _)
          obtain ⟨d2, hd2, hcd2⟩ := mem_natChars_digit k.natAbs c2 hc2mem
          have hlet := digitChar_not_letter d2 hd2
          show (if c2 = 'x' ∨ c2 = 'X' then parseRadix 16 hexVal cs2
              else if c2 = 'o' ∨ c2 = 'O' then parseRadix 8 octVal cs2
              else if c2 = 'b' ∨ c2 = 'B' then parseRadix 2 binVal cs2
              else parseUnsignedDecimal (c :: c2 :: cs2)) = JsNumber.finite k 0
          rw [if_neg (by rw [hcd2]; exact hlet.2.1),
            if_neg (by rw [hcd2]; exact hlet.2.2.1),
            if_neg (by rw [hcd2]; exact hlet.2.2.2),
            hfin]
          exact congrArg (fun m => JsNumber.finite m 0) hk2
    · rw [if_neg hc0, hfin]
      exact congrArg (fun m => JsNumber.finite m 0) hk2

theorem jsNumEq_finite_iff (m1 e1 m2 e2 : Int) :
    jsNumEq (JsNumber.finite m1 e1) (JsNumber.finite m2 e2) = true ↔
      (m1 : ℚ) * 10 ^ e1 = (m2 : ℚ) * 10 ^ e2 := by
  have h10 : ((10 : ℚ)) ≠ 0 := by norm_num
  show (if e1 ≤ e2 then m1 == m2 * 10 ^ (e2 - e1).toNat
      else m1 * 10 ^ (e1 - e2).toNat == m2) = true ↔ _
  by_cases h : e1 ≤ e2
  · rw [if_pos h, beq_iff_eq]
    have hsplit : (10 : ℚ) ^ e2 = 10 ^ e1 * 10 ^ ((e2 - e1).toNat : Nat) := by
      rw [← zpow_natCast (10 : ℚ) (e2 - e1).toNat,
        Int.toNat_of_nonneg (by omega : (0 : Int) ≤ e2 - e1),
        ← zpow_add₀ h10]
      congr 1
      omega
    constructor
    · intro he
      rw [hsplit, he]
      push_cast
      ring
    · intro he
      rw [hsplit] at he
      have h2 : (m1 : ℚ) * 10 ^ e1 = ((m2 * 10 ^ (e2 - e1).toNat : Int) : ℚ) * 10 ^ e1 := by
        push_cast
        linear_combination he
      have h3 := mul_right_cancel₀ (zpow_ne_zero e1 h10) h2
      exact_mod_cast h3
  · rw [if_neg h, beq_iff_eq]
    have hsplit : (10 : ℚ) ^ e1 = 10 ^ e2 * 10 ^ ((e1 - e2).toNat : Nat) := by
      rw [← zpow_natCast (10 : ℚ) (e1 - e2).toNat,
        Int.toNat_of_nonneg (by omega : (0 : Int) ≤ e1 - e2),
        ← zpow_add₀ h10]
      congr 1
      omega
    constructor
    · intro he
      rw [hsplit, ← he]
      push_cast
      ring
    · intro he
      rw [hsplit] at he
      have h2 : ((m1 * 10 ^ (e1 - e2).toNat : Int) : ℚ) * 10 ^ e2 = (m2 : ℚ) * 10 ^ e2 := by
        push_cast
        linear_combination he
      have h3 := mul_right_cancel₀ (zpow_ne_zero e2 h10) h2
      exact_mod_cast h3

/-- The per-record match test of the kart-number filter
(`src/unnamed/part_001`, lines 35-37, and the popup `refreshTable`, line
121): with `searchValue` the trimmed search input and `kartNum` the record's
kart number rendered as a string, keep the record when
`kartNum === searchValue || Number(kartNum) === Number(searchValue)`. -/
def matchesKart (searchValue : String) (kartNumber : Int) : Bool :=
  (jsToString kartNumber == searchValue) ||
    jsNumEq (jsStrToNum (jsToString kartNumber)) (jsStrToNum searchValue)

/-- `filteredInfringements` from `src/unnamed/part_001` (lines 32-39): when
the search string is empty (falsy) the list is left as is, otherwise it is
filtered by the kart-number match against the trimmed search input. -/
def filteredInfringements (searchKartNumber : String)
    (infringements : List InfringementRecord) : List InfringementRecord :=
  if searchKartNumber = "" then infringements
  else infringements.filter (fun inf => matchesKart (jsTrim searchKartNumber) inf.kart_number)

theorem matchesKart_iff (searchValue : String) (kartNumber : Int) :
    matchesKart searchValue kartNumber = true ↔
      (jsStrToNum searchValue).toRat? = some ((kartNumber : Int) : ℚ) := by
  unfold matchesKart
  rw [Bool.or_eq_true]
  have hrt := jsStrToNum_jsToString kartNumber
  constructor
  · rintro (h | h)
    · rw [beq_iff_eq] at h
      rw [← h, hrt]
      show some ((kartNumber : ℚ) * 10 ^ (0 : Int)) = some ((kartNumber : Int) : ℚ)
      norm_num
    · rw [hrt] at h
      cases hy : jsStrToNum searchValue with
      | nan => rw [hy] at h; exact absurd h (by simp [jsNumEq])
      | posInf => rw [hy] at h; exact absurd h (by simp [jsNumEq])
      | negInf => rw [hy] at h; exact absurd h (by simp [jsNumEq])
      | finite m e =>
          rw [hy] at h
          have h2 := (jsNumEq_finite_iff kartNumber 0 m e).mp h
          show some ((m : ℚ) * 10 ^ e) = some ((kartNumber : Int) : ℚ)
          rw [← h2]
          norm_num
  · intro h
    right
    rw [hrt]
    cases hy : jsStrToNum searchValue with
    | nan => rw [hy] at h; simp [JsNumber.toRat?] at h
    | posInf => rw [hy] at h; simp [JsNumber.toRat?] at h
    | negInf => rw [hy] at h; simp [JsNumber.toRat?] at h
    | finite m e =>
        rw [hy] at h
        have h2 : (m : ℚ) * 10 ^ e = ((kartNumber : Int) : ℚ) :=
          Option.some.inj h
        exact (jsNumEq_finite_iff kartNumber 0 m e).mpr (by rw [← h2]; norm_num)

/-- A record with kart number 42, used by the filter examples. -/
def sample42 : InfringementRecord :=
  { id := 2, kart_number := 42, turn_number := some 3, observer := "John",
    description := "Track Limits", penalty_description := some "5 Sec",
    penalty_due := "Yes", penalty_taken := false, performed_by := "Op", timestamp := 0 }

/-- A record with kart number 420, used by the filter examples. -/
def sample420 : InfringementRecord :=
  { id := 3, kart_number := 420, turn_number := none, observer := "Mike",
    description := "Blocking", penalty_description := some "10 Sec",
    penalty_due := "Yes", penalty_taken := false, performed_by := "Op", timestamp := 0 }

/-- **C5.** The kart-number filter matches exactly on the numeric value
after trimming whitespace from the search input: for a non-empty search
string a record is kept if and only if JavaScript `Number` of the trimmed
input is exactly its kart number — so non-numeric input matches no record;
an empty search string leaves the list unfiltered; and searching "42" (or
any other literal of value 42, such as "42.0" or "0x2A") keeps a record
with kart number 42 but not one with kart number 420. -/
theorem kart_filter_exact (searchKartNumber : String)
    (infringements : List InfringementRecord) (r : InfringementRecord) :
    (searchKartNumber ≠ "" →
      (r ∈ filteredInfringements searchKartNumber infringements ↔
        (r ∈ infringements ∧
          (jsStrToNum (jsTrim searchKartNumber)).toRat? = some ((r.kart_number : Int) : ℚ)))) ∧
    filteredInfringements "" infringements = infringements ∧
    sample42 ∈ filteredInfringements "42" [sample42, sample420] ∧
    sample420 ∉ filteredInfringements "42" [sample42, sample420] ∧
    sample42 ∈ filteredInfringements "42.0" [sample42, sample420] ∧
    sample42 ∈ filteredInfringements "0x2A" [sample42, sample420] ∧
    filteredInfringements "abc" [sample42, sample420] = [] := by
  refine ⟨?_, ?_, ?_, ?_, ?_, ?_, ?_⟩
  · intro hne
    rw [filteredInfringements, if_neg hne, List.mem_filter]
    exact and_congr_right (fun _ => matchesKart_iff (jsTrim searchKartNumber) r.kart_number)
  · rw [filteredInfringements, if_pos rfl]
  · rw [filteredInfringements, if_neg (by decide), List.mem_filter]
    refine ⟨by decide, (matchesKart_iff (jsTrim "42") sample42.kart_number).mpr ?_⟩
    rw [show jsStrToNum (jsTrim "42") = JsNumber.finite 42 0 from by decide]
    show some (((42 : Int) : ℚ) * 10 ^ (0 : Int)) = some ((sample42.kart_number : Int) : ℚ)
    norm_num [sample42]
  · rw [filteredInfringements, if_neg (by decide), List.mem_filter]
    rintro ⟨-, hm⟩
    have h2 := (matchesKart_iff (jsTrim "42") sample420.kart_number).mp hm
    rw [show jsStrToNum (jsTrim "42") = JsNumber.finite 42 0 from by decide] at h2
    have h3 : ((42 : Int) : ℚ) * 10 ^ (0 : Int) = ((sample420.kart_number : Int) : ℚ) :=
      Option.some.inj h2
    norm_num [sample420] at h3
  · rw [filteredInfringements, if_neg (by decide), List.mem_filter]
    refine ⟨by decide, (matchesKart_iff (jsTrim "42.0") sample42.kart_number).mpr ?_⟩
    rw [show jsStrToNum (jsTrim "42.0") = JsNumber.finite 420 (-1) from by decide]
    show some (((420 : Int) : ℚ) * 10 ^ (-1 : Int)) = some ((sample42.kart_number : Int) : ℚ)
    norm_num [sample42, zpow_neg, zpow_one]
  · rw [filteredInfringements, if_neg (by decide), List.mem_filter]
    refine ⟨by decide, (matchesKart_iff (jsTrim "0x2A") sample42.kart_number).mpr ?_⟩
    rw [show jsStrToNum (jsTrim "0x2A") = JsNumber.finite 42 0 from by decide]
    show some (((42 : Int) : ℚ) * 10 ^ (0 : Int)) = some ((sample42.kart_number : Int) : ℚ)
    norm_num [sample42]
  · rw [filteredInfringements, if_neg (by decide)]
    have hnan : jsStrToNum (jsTrim "abc") = JsNumber.nan := by decide
    have h42 : matchesKart (jsTrim "abc") sample42.kart_number = false := by
      rw [Bool.eq_false_iff]
      intro hm
      have h2 := (matchesKart_iff (jsTrim "abc") sample42.kart_number).mp hm
      rw [hnan] at h2
      simp [JsNumber.toRat?] at h2
    have h420 : matchesKart (jsTrim "abc") sample420.kart_number = false := by
      rw [Bool.eq_false_iff]
      intro hm
      have h2 := (matchesKart_iff (jsTrim "abc") sample420.kart_number).mp hm
      rw [hnan] at h2
      simp [JsNumber.toRat?] at h2
    simp [List.filter, h42, h420]

theorem kart_filter_exact_witness :
    (sample42 ∈ filteredInfringements "42" [sample42, sample420] ↔
      (sample42 ∈ [sample42, sample420] ∧
        (jsStrToNum (jsTrim "42")).toRat? = some ((sample42.kart_number : Int) : ℚ))) ∧
    filteredInfringements "" [sample42, sample420] = [sample42, sample420] :=
  ⟨(kart_filter_exact "42" [sample42, sample420] sample42).1 (by decide),
    (kart_filter_exact "" [sample42, sample420] sample42).2.1⟩
